import Mathlib

/-!
# Verification of the PDF fact-checker core

A shallow embedding of `src/factchecker/SimplePDFFactChecker.py` (the
authoritative variant of the repository's fact-checker scripts), together
with proofs about its chunker, retrieval-confidence scorer, memory monitor
and ingestion sweep.

Python strings are embedded as `List Char`, Python `int` as `Int`/`Nat`,
Python `float` as `ℚ` (all float values appearing here are small dyadic
numbers, so rational arithmetic is exact), Python exceptions as
`Except`/explicit outcome constructors.  External collaborators (the
embedding model, the Chroma vector store, `pymupdf`, `psutil`) are passed
in as oracle parameters; the embedded code never inspects more of their
behaviour than the Python source does.
-/

namespace FactChecker

/-! ## Python string primitives -/

/-- The whitespace characters recognised by Python's `str.isspace` /
`str.strip()` / `str.split()` for the ASCII range (the texts handled by the
claims contain only ASCII whitespace). -/
def pyIsSpace (c : Char) : Bool :=
  c = ' ' || c = '\t' || c = '\n' || c = '\r' || c = Char.ofNat 11 || c = Char.ofNat 12

/-- Python `s.strip()`: remove leading and trailing whitespace. -/
def pyStrip (s : List Char) : List Char :=
  ((s.dropWhile pyIsSpace).reverse.dropWhile pyIsSpace).reverse

/-- Python `s[a:b]` slicing with the usual clamping and negative-index
semantics. -/
def pySlice (s : List Char) (a b : Int) : List Char :=
  let n : Int := s.length
  let a' : Int := if a < 0 then max (n + a) 0 else min a n
  let b' : Int := if b < 0 then max (n + b) 0 else min b n
  (s.drop a'.toNat).take (b'.toNat - a'.toNat)

/-- Python `s[i]` for a single index: negative indices count from the end,
out-of-range indices raise `IndexError` (modelled as `none`). -/
def pyCharAt (s : List Char) (i : Int) : Option Char :=
  let j : Int := if i < 0 then (s.length : Int) + i else i
  if j < 0 then none else s.get? j.toNat

/-- Python `s.rfind(c)`: index of the last occurrence of `c`, `-1` if
absent. -/
def rfindChar (s : List Char) (c : Char) : Int :=
  match s with
  | [] => -1
  | x :: rest =>
    let r := rfindChar rest c
    if r ≥ 0 then r + 1
    else if x = c then 0 else -1

/-- Python `s.split()` with no argument: split on runs of whitespace,
discarding empty fragments.  A non-space character followed by a space (or
the end) closes a token; otherwise it joins the token the rest of the
string opens. -/
def pySplitWs : List Char → List (List Char)
  | [] => []
  | c :: rest =>
    if pyIsSpace c then pySplitWs rest
    else
      match rest with
      | [] => [[c]]
      | r :: _ =>
        if pyIsSpace r then [c] :: pySplitWs rest
        else
          match pySplitWs rest with
          | t :: ts => (c :: t) :: ts
          | [] => [[c]]

/-- The sentence-terminator characters of the pattern `[.!?]+`. -/
def isTerminator (c : Char) : Bool :=
  c = '.' || c = '!' || c = '?'

/-- Python `re.split(r'[.!?]+', s)`: split on maximal nonempty runs of
sentence terminators, keeping empty fragments (as `re.split` does).  A
terminator directly followed by another terminator adds no new boundary
(the run counts as one separator). -/
def reSplitTerms : List Char → List (List Char)
  | [] => [[]]
  | c :: rest =>
    if isTerminator c then
      match rest with
      | [] => [] :: reSplitTerms rest
      | r :: _ =>
        if isTerminator r then reSplitTerms rest
        else [] :: reSplitTerms rest
    else
      match reSplitTerms rest with
      | t :: ts => (c :: t) :: ts
      | [] => [[c]]

/-! ## Chunker (`SimplePDFFactChecker.chunk_text_with_overlap`, lines 405-446)

The Python `while` loop is embedded as a step function plus a fuel-indexed
iterator; `LoopOutcome.fuelOut` means the loop had not exited after the
given number of iterations. -/

/-- Result of one iteration of the chunking `while` loop. -/
inductive StepResult where
  | next (start : Int) (chunks : List (List Char))
  | done (chunks : List (List Char))
  | exc
deriving DecidableEq, Repr

/-- One iteration of the `while start < text_len` loop body
(lines 416-438): compute the window, optionally snap `end` back to a
sentence terminator or space, emit the stripped chunk if long enough, and
advance `start := end - overlap`.  `StepResult.exc` models the `IndexError`
that `text[end]` would raise (caught by the enclosing handler); it cannot
occur while `0 ≤ end`, which holds in every execution analysed below. -/
def chunkStep (size overlap : Nat) (text : List Char) (start : Int)
    (chunks : List (List Char)) : StepResult :=
  let text_len : Int := text.length
  let end0 : Int := min (start + (size : Int)) text_len
  let chunk0 := pySlice text start end0
  let adjust : Option (Int × List Char) :=
    if end0 < text_len then
      match pyCharAt text end0 with
      | none => none
      | some ch =>
        if !(pyIsSpace ch) then
          let sentence_end : Int :=
            max (rfindChar chunk0 '.') (max (rfindChar chunk0 '!') (rfindChar chunk0 '?'))
          if sentence_end > start + ((size / 3 : Nat) : Int) then
            let end1 := start + sentence_end + 1
            some (end1, pySlice text start end1)
          else
            let last_space := rfindChar chunk0 ' '
            if last_space > start + ((size / 2 : Nat) : Int) then
              let end1 := start + last_space
              some (end1, pySlice text start end1)
            else some (end0, chunk0)
        else some (end0, chunk0)
    else some (end0, chunk0)
  match adjust with
  | none => .exc
  | some (endF, chunkF) =>
    let stripped := pyStrip chunkF
    let chunks' := if stripped.length > 50 then chunks ++ [stripped] else chunks
    let start' := endF - (overlap : Int)
    if start' ≥ text_len then .done chunks' else .next start' chunks'

/-- Outcome of running the chunking loop with a given amount of fuel. -/
inductive LoopOutcome where
  | finished (chunks : List (List Char))
  | raised
  | fuelOut
deriving DecidableEq, Repr

/-- The chunking `while` loop, iterated at most `fuel` times. -/
def chunkLoop (size overlap : Nat) (text : List Char) :
    Nat → Int → List (List Char) → LoopOutcome
  | 0, _, _ => .fuelOut
  | fuel + 1, start, chunks =>
    if start < (text.length : Int) then
      match chunkStep size overlap text start chunks with
      | .next start' chunks' => chunkLoop size overlap text fuel start' chunks'
      | .done chunks' => .finished chunks'
      | .exc => .raised
    else .finished chunks

/-- `SimplePDFFactChecker.chunk_text_with_overlap` (lines 405-446): the
guard `if not text or len(text.strip()) < 50: return []`, then the loop,
then the `valid_chunks` filter `len(chunk.split()) >= 5 and
len(chunk) >= 50`.  An exception inside the `try` returns `[]` (line 446);
`none` means the loop had not terminated within `fuel` iterations. -/
def chunk_text_with_overlap (size overlap fuel : Nat) (text : List Char) :
    Option (List (List Char)) :=
  if text.isEmpty || decide ((pyStrip text).length < 50) then some []
  else
    match chunkLoop size overlap text fuel 0 [] with
    | .fuelOut => none
    | .raised => some []
    | .finished chunks =>
      some (chunks.filter (fun c => decide (5 ≤ (pySplitWs c).length) && decide (50 ≤ c.length)))

/-! ## Retrieval and confidence scoring (`simple_fact_check`, lines 471-538)

`retrieve_relevant_context` (lines 448-469) is a thin wrapper over the
embedding model and the Chroma query; the scorer only reads the returned
list of `{text, metadata, distance}` records ordered by the store, so the
whole retrieval stage is passed in as an oracle `retrieve`; an exception
inside `retrieve_relevant_context` is caught there and yields `[]`, which
the oracle can also return. -/

/-- One retrieved chunk as `retrieve_relevant_context` returns it: the
chunk text, the metadata fields the scorer reads (`title`, `source`), and
the nearest-neighbor distance. -/
structure RChunk where
  text : List Char
  title : String
  source : String
  distance : ℚ
deriving DecidableEq

/-- One entry of `results['claim_results']`. -/
structure ClaimResult where
  claim : List Char
  confidence : ℚ
  supporting_text : List Char
  source : Option (String × String)
deriving DecidableEq

/-- One entry of `results['sources']`: the `{title, source}` pair. -/
structure SourceInfo where
  title : String
  source : String
deriving DecidableEq

/-- The `results` dict built by `simple_fact_check`. -/
structure Verdict where
  is_supported : Bool
  confidence : ℚ
  claim_results : List ClaimResult
  sources : List SourceInfo
deriving DecidableEq

/-- The initial `results` dict (lines 483-488). -/
def sfcInit : Verdict :=
  { is_supported := true, confidence := 1, claim_results := [], sources := [] }

/-- The message shown for an unsupported claim (line 522). -/
def noEvidenceMsg : List Char := "Keine unterstützenden Belege gefunden".toList

/-- The `else` branch for a claim with no supporting evidence
(lines 515-524): flag unsupported, cap the overall confidence at 0.6, and
append a zero-confidence claim result. -/
def unsupportedUpdate (r : Verdict) (sentence : List Char) : Verdict :=
  { is_supported := false,
    confidence := min r.confidence (3/5),
    claim_results := r.claim_results ++
      [{ claim := sentence, confidence := 0, supporting_text := noEvidenceMsg, source := none }],
    sources := r.sources }

/-- The claim result appended for a supported claim (lines 502-507):
confidence `1 - distance`, the best match's first 200 characters plus an
ellipsis, and its metadata. -/
def hitClaimResult (sentence : List Char) (best : RChunk) : ClaimResult :=
  { claim := sentence, confidence := 1 - best.distance,
    supporting_text := pySlice best.text 0 200 ++ ('.' :: '.' :: '.' :: []),
    source := some (best.title, best.source) }

/-- The `source_info` dict of lines 509-512. -/
def bestSource (best : RChunk) : SourceInfo :=
  { title := best.title, source := best.source }

/-- The supported branch (lines 498-514): append the claim result, then
append the `(title, source)` pair to `sources` unless already present
(the membership test reads the `sources` list, which the claim-result
append leaves untouched). -/
def supportedUpdate (r : Verdict) (sentence : List Char) (best : RChunk) : Verdict :=
  if bestSource best ∈ r.sources then
    { r with claim_results := r.claim_results ++ [hitClaimResult sentence best] }
  else
    { r with claim_results := r.claim_results ++ [hitClaimResult sentence best],
             sources := r.sources ++ [bestSource best] }

/-- The body of the `for sentence in sentences` loop (lines 490-527):
skip sentences shorter than 20 characters, then branch on
`relevant_chunks and relevant_chunks[0]['distance'] < similarity_threshold`. -/
def sfcStep (retrieve : List Char → List RChunk) (similarity_threshold : ℚ)
    (r : Verdict) (sentence : List Char) : Verdict :=
  if sentence.length < 20 then r
  else
    match retrieve sentence with
    | [] => unsupportedUpdate r sentence
    | best :: _ =>
      if best.distance < similarity_threshold then supportedUpdate r sentence best
      else unsupportedUpdate r sentence

/-- `SimplePDFFactChecker.simple_fact_check` (lines 471-529): split the
message on `[.!?]+`, keep stripped fragments longer than 10 characters,
cap at 5 sentences, and fold the per-sentence loop over them. -/
def simple_fact_check (retrieve : List Char → List RChunk) (message : List Char)
    (similarity_threshold : ℚ) : Verdict :=
  let sentences := (reSplitTerms message).filterMap
    (fun s => let t := pyStrip s; if 10 < t.length then some t else none)
  let sentences := sentences.take 5
  sentences.foldl (sfcStep retrieve similarity_threshold) sfcInit

/-! ## Memory monitor (`MemoryMonitor`, lines 617-649)

The two `psutil` samples (before and after `gc.collect()`) are passed in as
oracle values, in bytes. -/

/-- `MemoryMonitor.__init__` (line 622): `max_memory_gb * 1024 * 1024 * 1024`. -/
def maxMemoryBytes (maxMemoryGb : ℚ) : ℚ :=
  maxMemoryGb * 1024 * 1024 * 1024

/-- The `try` block of `MemoryMonitor.check_memory` (lines 626-646):
sample, and if over the ceiling force a reclaim, re-sample, and raise
`MemoryError` if still over; otherwise return the usage in GB. -/
def checkMemoryInner (maxBytes : ℚ) (sample1 sample2 : Nat) : Except Unit ℚ :=
  if (sample1 : ℚ) > maxBytes then
    if (sample2 : ℚ) > maxBytes then Except.error ()
    else Except.ok ((sample2 : ℚ) / 1024 / 1024 / 1024)
  else Except.ok ((sample1 : ℚ) / 1024 / 1024 / 1024)

/-- `MemoryMonitor.check_memory` (lines 624-649) as its caller observes it:
the whole body sits inside `try ... except Exception`, whose handler logs
and returns `0` — including when the body's own `raise MemoryError`
(line 644) fired. -/
def check_memory (maxMemoryGb : ℚ) (sample1 sample2 : Nat) : ℚ :=
  match checkMemoryInner (maxMemoryBytes maxMemoryGb) sample1 sample2 with
  | Except.ok gb => gb
  | Except.error _ => 0

/-! ## Change tracking and the ingestion sweep (lines 85-370)

The filesystem is embedded as the list of `(name, size, mtime, path)`
records that `glob` + `stat` would produce (one sweep sees a fixed
snapshot); `pymupdf`, the embedding model and the store are oracles.
`clean_text`/`chunk_text_with_overlap` inside `_process_single_pdf` are
abstracted into the per-document chunk count `nChunks` (their own
behaviour is analysed separately above). -/

/-- `_get_pdf_info`'s record (lines 104-112): the per-document fingerprint. -/
structure PdfInfo where
  name : String
  size : Nat
  modified : Int
  path : String
deriving DecidableEq

/-- The persisted `pdf_metadata.json` map, name-keyed. -/
def FpMap : Type := List (String × PdfInfo)

instance : DecidableEq FpMap := by unfold FpMap; infer_instance

/-- Python `metadata[name]` / `name in metadata` lookup. -/
def fpLookup : FpMap → String → Option PdfInfo
  | [], _ => none
  | (k, v) :: rest, n => if k = n then some v else fpLookup rest n

/-- Python `metadata[name] = info`: replace in place or append. -/
def fpInsert : FpMap → String → PdfInfo → FpMap
  | [], k, v => [(k, v)]
  | (k', v') :: rest, k, v =>
    if k' = k then (k, v) :: rest else (k', v') :: fpInsert rest k v

/-- The change test of `_find_new_or_updated_pdfs` (lines 139-141): a name
absent from the map, or a differing `modified` or `size`. -/
def isChanged (meta : FpMap) (p : PdfInfo) : Bool :=
  match fpLookup meta p.name with
  | none => true
  | some stored => stored.modified != p.modified || stored.size != p.size

/-- `_find_new_or_updated_pdfs` (lines 114-149): cap the listing at
`max_pdfs_per_batch = 3` files, then keep the changed ones.  `statFail`
models the per-file `try` around `_get_pdf_info` (a failing `stat` skips
the file, line 145-147). -/
def findNewOrUpdatedPdfs (meta : FpMap) (files : List PdfInfo)
    (statFail : String → Bool) : List PdfInfo :=
  (files.take 3).filter (fun p => !statFail p.name && isChanged meta p)

/-- What `_process_chunks_in_batches` did to the store: the batch start
indices it attempted and those whose embeddings were added. -/
structure IngestOutcome where
  attempted : List Nat
  upserted : List Nat
deriving DecidableEq

/-- `_process_chunks_in_batches` (lines 308-370): iterate
`range(0, len(chunks), 5)`; a failing embed/upsert batch is logged and the
loop `continue`s with the next batch, so the function never raises. -/
def processChunksInBatches (batchFail : Nat → Bool) (nChunks : Nat) : IngestOutcome :=
  ((List.range ((nChunks + 5 - 1) / 5)).map (· * 5)).foldl
    (fun st i =>
      if batchFail i then { st with attempted := st.attempted ++ [i] }
      else { attempted := st.attempted ++ [i], upserted := st.upserted ++ [i] })
    { attempted := [], upserted := [] }

/-- `_process_single_pdf` (lines 236-306): `raiseErr` models an exception
escaping the body (re-raised at line 306, e.g. `pymupdf.open` failing);
oversized files and documents yielding no text/chunks return normally
without touching the store; otherwise the chunk batches are processed. -/
def processSinglePdf (p : PdfInfo) (raiseErr : Bool) (nChunks : Nat)
    (batchFail : Nat → Bool) : Except Unit IngestOutcome :=
  if raiseErr then Except.error ()
  else if p.size > 50 * 1024 * 1024 then Except.ok { attempted := [], upserted := [] }
  else if nChunks = 0 then Except.ok { attempted := [], upserted := [] }
  else Except.ok (processChunksInBatches batchFail nChunks)

/-- An operation on the metadata file.  `_save_pdf_metadata` (lines 96-102)
performs a single in-place `open(file, 'w')` + `json.dump`; a
write-to-temp-then-replace scheme would instead emit a `write` to a
temporary path followed by a `rename`. -/
inductive FileOp where
  | write (path : String) (content : FpMap)
  | rename (src dst : String)
deriving DecidableEq

/-- The mutable state threaded through the `for pdf_path in
new_or_updated_pdfs` loop of `_update_database_if_needed`. -/
structure SweepAcc where
  meta : FpMap
  deletes : List String
  upserts : List (String × Nat)
deriving DecidableEq

/-- The per-document body of the update loop (lines 210-230): the
`check_memory` call never raises (see `check_memory`); stale chunks are
removed when the name is already tracked (`_remove_old_chunks` swallows
its own errors); a processing exception logs and `continue`s, leaving the
fingerprint uncommitted; on success the fingerprint is updated in the
in-memory map. -/
def sweepDocStep (docRaise : String → Bool) (docChunks : String → Nat)
    (batchFail : String → Nat → Bool) (acc : SweepAcc) (p : PdfInfo) : SweepAcc :=
  let deletes := if (fpLookup acc.meta p.name).isSome then acc.deletes ++ [p.name] else acc.deletes
  match processSinglePdf p (docRaise p.name) (docChunks p.name) (batchFail p.name) with
  | Except.error _ => { acc with deletes := deletes }
  | Except.ok out =>
    { meta := fpInsert acc.meta p.name p,
      deletes := deletes,
      upserts := acc.upserts ++ out.upserted.map (fun i => (p.name, i)) }

/-- The result of one sweep: the metadata map (as held in memory at the
end), the store deletions and upserts performed, the metadata-file
operations issued, and whether `_save_pdf_metadata` ran at all. -/
structure SweepResult where
  metadata : FpMap
  deletes : List String
  upserts : List (String × Nat)
  fileOps : List FileOp
  saved : Bool
deriving DecidableEq

/-- The `for pdf_path in new_or_updated_pdfs` loop of
`_update_database_if_needed`, folded over the per-document step. -/
def sweepFold (meta : FpMap) (changed : List PdfInfo) (docRaise : String → Bool)
    (docChunks : String → Nat) (batchFail : String → Nat → Bool) : SweepAcc :=
  changed.foldl (sweepDocStep docRaise docChunks batchFail)
    { meta := meta, deletes := [], upserts := [] }

/-- `_update_database_if_needed` (lines 197-234): find the changed
documents (an empty list returns without saving); otherwise process each
in turn and save the whole map once, at the end of the sweep, with a
single direct overwrite of `pdf_metadata.json`.  Both metadata loads
(lines 116 and 208) read the same on-disk map `meta`. -/
def updateDatabaseIfNeeded (meta : FpMap) (files : List PdfInfo)
    (statFail docRaise : String → Bool) (docChunks : String → Nat)
    (batchFail : String → Nat → Bool) : SweepResult :=
  if (findNewOrUpdatedPdfs meta files statFail).isEmpty then
    { metadata := meta, deletes := [], upserts := [], fileOps := [], saved := false }
  else
    { metadata := (sweepFold meta (findNewOrUpdatedPdfs meta files statFail)
        docRaise docChunks batchFail).meta,
      deletes := (sweepFold meta (findNewOrUpdatedPdfs meta files statFail)
        docRaise docChunks batchFail).deletes,
      upserts := (sweepFold meta (findNewOrUpdatedPdfs meta files statFail)
        docRaise docChunks batchFail).upserts,
      fileOps := [FileOp.write "pdf_metadata.json"
        (sweepFold meta (findNewOrUpdatedPdfs meta files statFail)
          docRaise docChunks batchFail).meta],
      saved := true }

/-- Repeated sweeps over an unchanged filesystem: each sweep reads the map
the previous one left behind. -/
def iterateSweeps (files : List PdfInfo) (statFail docRaise : String → Bool)
    (docChunks : String → Nat) (batchFail : String → Nat → Bool) :
    Nat → FpMap → FpMap
  | 0, meta => meta
  | n + 1, meta =>
    iterateSweeps files statFail docRaise docChunks batchFail n
      (updateDatabaseIfNeeded meta files statFail docRaise docChunks batchFail).metadata

/-! ## Chunker lemmas and claims C1, C9 -/

/-- Unfolding one iteration of the chunking loop when the body continues. -/
lemma chunkLoop_succ_next {size overlap fuel : Nat} {text : List Char}
    {start start' : Int} {chunks chunks' : List (List Char)}
    (h1 : start < (text.length : Int))
    (h2 : chunkStep size overlap text start chunks = StepResult.next start' chunks') :
    chunkLoop size overlap text (fuel + 1) start chunks =
      chunkLoop size overlap text fuel start' chunks' := by
  simp only [chunkLoop]
  rw [if_pos h1, h2]

/-- A 60-character space-free text: long enough to pass the chunker's
input guard. -/
def allAs60 : List Char := List.replicate 60 'a'

/-- With `chunk_size = 300`, `overlap = 50`, the first iteration on
`allAs60` takes the hard cut `end = 60` and advances to
`start = 60 - 50 = 10`, emitting the whole text as a chunk. -/
lemma allAs60_step_zero :
    chunkStep 300 50 allAs60 0 [] = StepResult.next 10 [allAs60] := by decide

/-- From `start = 10` the cut is again `end = 60`, the 50-character slice
fails the `len(chunk) > 50` test, and `start := end - overlap = 10`
again: a fixed point of the loop body. -/
lemma allAs60_step_fixed (chunks : List (List Char)) :
    chunkStep 300 50 allAs60 10 chunks = StepResult.next 10 chunks := rfl

/-- From the fixed point the loop consumes any amount of fuel without
exiting. -/
lemma allAs60_loop_stuck :
    ∀ (fuel : Nat) (chunks : List (List Char)),
      chunkLoop 300 50 allAs60 fuel 10 chunks = LoopOutcome.fuelOut := by
  intro fuel
  induction fuel with
  | zero => intro chunks; rfl
  | succ n ih =>
    intro chunks
    rw [chunkLoop_succ_next (by decide) (allAs60_step_fixed chunks)]
    exact ih chunks

/-- C1: the claim states that for `0 < overlap < chunk_size` the chunker
terminates with a strictly increasing cursor.  In fact, with
`chunk_size = 300`, `overlap = 50` and the 60-character input `allAs60`
the loop reaches the fixed point `start = 10` after one iteration and
never exits, whatever the fuel: `start = end - overlap` can never reach
`text_len` because `end ≤ text_len` and `overlap > 0`, so both the `while`
condition and the `start >= text_len` break guard stay unreachable and the
cursor stops increasing. -/
theorem chunk_text_with_overlap_nonterminating :
    ∀ fuel : Nat, chunk_text_with_overlap 300 50 fuel allAs60 = none := by
  intro fuel
  have hloop : chunkLoop 300 50 allAs60 fuel 0 [] = LoopOutcome.fuelOut := by
    cases fuel with
    | zero => rfl
    | succ n =>
      rw [chunkLoop_succ_next (by decide) allAs60_step_zero]
      exact allAs60_loop_stuck n [allAs60]
  unfold chunk_text_with_overlap
  rw [if_neg (by decide), hloop]

/-- The scenario text of C9: 700 characters, no sentence terminator, whose
only space sits at position 310. -/
def scenarioText700 : List Char :=
  List.replicate 310 'a' ++ ' ' :: List.replicate 389 'a'

set_option maxRecDepth 40000 in
/-- C9 counterexample: the claim says the first chunk's window `[0,300)`
is adjusted to the last space beyond position 150 so that the first chunk
ends at 310 and the second starts at 260.  In fact the space at 310 lies
outside the window (`rfind` searches `text[0:300]` only), no snap occurs,
the first chunk is the hard cut ending at 300, and the second iteration
starts at `300 - 50 = 250`, not 260. -/
theorem scenario_first_window_cx :
    chunkStep 300 50 scenarioText700 0 [] =
        StepResult.next 250 [List.replicate 300 'a'] ∧
      chunkStep 300 50 scenarioText700 0 [] ≠
        StepResult.next 260 [pyStrip (pySlice scenarioText700 0 310)] := by
  constructor
  · decide
  · decide

set_option maxRecDepth 40000 in
/-- C9 amended: on the scenario input the first window `[0,300)` contains
no sentence terminator and no space, so the chunker keeps the hard cut:
the first emitted chunk is `text[0:300]` (ending at position 300) and the
second iteration starts at position 250. -/
theorem scenario_first_window_actual :
    chunkStep 300 50 scenarioText700 0 [] =
      StepResult.next 250 [pySlice scenarioText700 0 300] := by decide

/-! ## Memory monitor: claim C5 -/

/-- A 5 GiB resident-set sample, in bytes. -/
def fiveGiB : Nat := 5 * 1024 * 1024 * 1024

/-- C5: with a 4 GB ceiling and both samples (before and after the forced
`gc.collect()`) at 5 GiB, the `try` body of `check_memory` does raise
`MemoryError` — but the function's own `except Exception` handler catches
it, logs, and returns `0`, so no fatal signal ever propagates to the
caller and the current document is not aborted. -/
theorem check_memory_swallows_memory_error :
    checkMemoryInner (maxMemoryBytes 4) fiveGiB fiveGiB = Except.error () ∧
      check_memory 4 fiveGiB fiveGiB = 0 := by
  have hgt : ((fiveGiB : Nat) : ℚ) > maxMemoryBytes 4 := by
    unfold fiveGiB maxMemoryBytes
    push_cast
    norm_num
  have hinner : checkMemoryInner (maxMemoryBytes 4) fiveGiB fiveGiB = Except.error () := by
    unfold checkMemoryInner
    rw [if_pos hgt, if_pos hgt]
  refine ⟨hinner, ?_⟩
  unfold check_memory
  rw [hinner]

/-! ## Scorer lemmas and claims C2, C8, C10 -/

/-- A property preserved by every step of a fold holds of the fold. -/
lemma foldl_preserve {α β : Type} (f : β → α → β) (P : β → Prop)
    (h : ∀ b a, P b → P (f b a)) : ∀ (l : List α) (b : β), P b → P (l.foldl f b) := by
  intro l
  induction l with
  | nil => intro b hb; exact hb
  | cons a l ih => intro b hb; exact ih _ (h b a hb)

lemma supportedUpdate_claim_results (r : Verdict) (s : List Char) (b : RChunk) :
    (supportedUpdate r s b).claim_results = r.claim_results ++ [hitClaimResult s b] := by
  unfold supportedUpdate; split <;> rfl

/-- Branch equation: sentences shorter than 20 characters are skipped. -/
lemma sfcStep_skip (retrieve : List Char → List RChunk) (t : ℚ) (r : Verdict)
    {s : List Char} (h : s.length < 20) : sfcStep retrieve t r s = r := by
  unfold sfcStep
  rw [if_pos h]

/-- Branch equation: no retrieved chunks means the unsupported branch. -/
lemma sfcStep_of_nil {retrieve : List Char → List RChunk} {t : ℚ} {r : Verdict}
    {s : List Char} (h : ¬s.length < 20) (hrel : retrieve s = []) :
    sfcStep retrieve t r s = unsupportedUpdate r s := by
  unfold sfcStep
  rw [if_neg h, hrel]

/-- Branch equation: a nearest chunk below the threshold means the
supported branch. -/
lemma sfcStep_of_hit {retrieve : List Char → List RChunk} {t : ℚ} {r : Verdict}
    {s : List Char} {best : RChunk} {rest : List RChunk} (h : ¬s.length < 20)
    (hrel : retrieve s = best :: rest) (hdist : best.distance < t) :
    sfcStep retrieve t r s = supportedUpdate r s best := by
  unfold sfcStep
  rw [if_neg h, hrel]
  show (if best.distance < t then supportedUpdate r s best else unsupportedUpdate r s) = _
  rw [if_pos hdist]

/-- Branch equation: a nearest chunk at or above the threshold means the
unsupported branch. -/
lemma sfcStep_of_miss {retrieve : List Char → List RChunk} {t : ℚ} {r : Verdict}
    {s : List Char} {best : RChunk} {rest : List RChunk} (h : ¬s.length < 20)
    (hrel : retrieve s = best :: rest) (hdist : ¬best.distance < t) :
    sfcStep retrieve t r s = unsupportedUpdate r s := by
  unfold sfcStep
  rw [if_neg h, hrel]
  show (if best.distance < t then supportedUpdate r s best else unsupportedUpdate r s) = _
  rw [if_neg hdist]

lemma supportedUpdate_confidence (r : Verdict) (s : List Char) (b : RChunk) :
    (supportedUpdate r s b).confidence = r.confidence := by
  unfold supportedUpdate; split <;> rfl

lemma supportedUpdate_is_supported (r : Verdict) (s : List Char) (b : RChunk) :
    (supportedUpdate r s b).is_supported = r.is_supported := by
  unfold supportedUpdate; split <;> rfl

/-- The overall confidence always equals `1` while the verdict flag is up
and `3/5` once it is down: only the unsupported branch touches either. -/
def confFlag (r : Verdict) : Prop :=
  r.confidence = if r.is_supported then 1 else 3/5

lemma unsupportedUpdate_confFlag {r : Verdict} (s : List Char) (h : confFlag r) :
    confFlag (unsupportedUpdate r s) := by
  unfold confFlag unsupportedUpdate at *
  simp only [if_false, Bool.false_eq_true]
  rw [h]
  by_cases hs : r.is_supported = true
  · rw [if_pos hs]
    exact min_eq_right (by norm_num)
  · rw [if_neg hs]
    exact min_self _

lemma sfcStep_confFlag (retrieve : List Char → List RChunk) (t : ℚ)
    (r : Verdict) (s : List Char) (h : confFlag r) : confFlag (sfcStep retrieve t r s) := by
  by_cases hlen : s.length < 20
  · rw [sfcStep_skip retrieve t r hlen]; exact h
  · cases hrel : retrieve s with
    | nil => rw [sfcStep_of_nil hlen hrel]; exact unsupportedUpdate_confFlag s h
    | cons best rest =>
      by_cases hdist : best.distance < t
      · rw [sfcStep_of_hit hlen hrel hdist]
        unfold confFlag
        rw [supportedUpdate_confidence, supportedUpdate_is_supported]
        exact h
      · rw [sfcStep_of_miss hlen hrel hdist]; exact unsupportedUpdate_confFlag s h

/-- C2 amended: the overall confidence is not a minimum over per-claim
confidences.  Supported claims never change it; it is `1.0` whenever the
verdict flag `is_supported` is still true, and exactly the `0.6` floor
once any claim was unsupported. -/
theorem overall_confidence_flag_determined
    (retrieve : List Char → List RChunk) (message : List Char) (t : ℚ) :
    (simple_fact_check retrieve message t).confidence =
      if (simple_fact_check retrieve message t).is_supported then 1 else 3/5 := by
  have h : confFlag (simple_fact_check retrieve message t) := by
    unfold simple_fact_check
    exact foldl_preserve _ confFlag (fun b a hb => sfcStep_confFlag retrieve t b a hb) _ sfcInit
      (by simp [confFlag, sfcInit])
  exact h

/-- A store hit at distance `1/2`. -/
def lowDistChunk : RChunk :=
  { text := "supporting evidence text".toList, title := "T", source := "S", distance := 1/2 }

/-- A retrieval oracle that always returns the single hit `lowDistChunk`. -/
def singleHitRetrieve : List Char → List RChunk := fun _ => [lowDistChunk]

/-- A 24-character single-sentence message. -/
def longClaim : List Char := List.replicate 24 'a'

/-- C2 counterexample: the claim says the overall confidence equals the
minimum of the per-claim confidences (capped at the floor when a claim is
unsupported), so a supported claim with confidence `1/2` should drag the
overall confidence to `1/2`.  In fact the single evaluated claim is
supported with per-claim confidence `1/2`, yet the overall confidence
stays `1`. -/
theorem overall_confidence_not_min_cx :
    (simple_fact_check singleHitRetrieve longClaim (3/5)).confidence = 1 ∧
      (simple_fact_check singleHitRetrieve longClaim (3/5)).claim_results.map
        ClaimResult.confidence = [1/2] ∧
      (simple_fact_check singleHitRetrieve longClaim (3/5)).confidence ≠ (1/2 : ℚ) := by
  have hs : simple_fact_check singleHitRetrieve longClaim (3/5) =
      supportedUpdate sfcInit longClaim lowDistChunk := by
    show (((reSplitTerms longClaim).filterMap
        (fun s => let t := pyStrip s; if 10 < t.length then some t else none)).take 5).foldl
        (sfcStep singleHitRetrieve (3/5)) sfcInit = _
    have hsen : ((reSplitTerms longClaim).filterMap
        (fun s => let t := pyStrip s; if 10 < t.length then some t else none)).take 5 =
        [longClaim] := by decide
    rw [hsen]
    show sfcStep singleHitRetrieve (3/5) sfcInit longClaim = _
    unfold sfcStep
    rw [if_neg (by decide)]
    show (if lowDistChunk.distance < 3/5 then supportedUpdate sfcInit longClaim lowDistChunk
      else unsupportedUpdate sfcInit longClaim) = _
    rw [if_pos (by norm_num [lowDistChunk])]
  rw [hs]
  refine ⟨?_, ?_, ?_⟩
  · rw [supportedUpdate_confidence]; rfl
  · rw [supportedUpdate_claim_results]
    show List.map ClaimResult.confidence [hitClaimResult longClaim lowDistChunk] = [1/2]
    simp [hitClaimResult, lowDistChunk]
    norm_num
  · rw [supportedUpdate_confidence]
    show (1 : ℚ) ≠ 1/2
    norm_num

/-- Every recorded claim confidence lies in `[0,1]`, and an unsupported
claim's confidence is exactly `0`. -/
def claimBounds (r : Verdict) : Prop :=
  ∀ cr ∈ r.claim_results,
    0 ≤ cr.confidence ∧ cr.confidence ≤ 1 ∧ (cr.source = none → cr.confidence = 0)

/-- While the verdict flag is up, every recorded claim is supported. -/
def allSupportedWhenFlag (r : Verdict) : Prop :=
  r.is_supported = true → ∀ cr ∈ r.claim_results, cr.source ≠ none

lemma unsupportedUpdate_claimBounds {r : Verdict} (s : List Char) (h : claimBounds r) :
    claimBounds (unsupportedUpdate r s) := by
  intro cr hcr
  rcases List.mem_append.mp hcr with hm | hm
  · exact h cr hm
  · simp only [List.mem_singleton] at hm
    subst hm
    norm_num

lemma sfcStep_claimBounds (retrieve : List Char → List RChunk) (t : ℚ)
    (hd : ∀ s c, c ∈ retrieve s → 0 ≤ c.distance ∧ c.distance ≤ 1)
    (r : Verdict) (s : List Char) (h : claimBounds r) :
    claimBounds (sfcStep retrieve t r s) := by
  by_cases hlen : s.length < 20
  · rw [sfcStep_skip retrieve t r hlen]; exact h
  · cases hrel : retrieve s with
    | nil => rw [sfcStep_of_nil hlen hrel]; exact unsupportedUpdate_claimBounds s h
    | cons best rest =>
      by_cases hdist : best.distance < t
      · rw [sfcStep_of_hit hlen hrel hdist]
        have hbest : best ∈ retrieve s := by rw [hrel]; exact List.mem_cons_self best rest
        obtain ⟨hd0, hd1⟩ := hd s best hbest
        intro cr hcr
        rw [supportedUpdate_claim_results] at hcr
        rcases List.mem_append.mp hcr with hm | hm
        · exact h cr hm
        · simp only [List.mem_singleton] at hm
          subst hm
          refine ⟨by simp [hitClaimResult]; linarith, by simp [hitClaimResult]; linarith, ?_⟩
          intro hnone
          simp [hitClaimResult] at hnone
      · rw [sfcStep_of_miss hlen hrel hdist]; exact unsupportedUpdate_claimBounds s h

lemma sfcStep_allSupportedWhenFlag (retrieve : List Char → List RChunk) (t : ℚ)
    (r : Verdict) (s : List Char) (h : allSupportedWhenFlag r) :
    allSupportedWhenFlag (sfcStep retrieve t r s) := by
  by_cases hlen : s.length < 20
  · rw [sfcStep_skip retrieve t r hlen]; exact h
  · cases hrel : retrieve s with
    | nil =>
      rw [sfcStep_of_nil hlen hrel]
      intro hflag; simp [unsupportedUpdate] at hflag
    | cons best rest =>
      by_cases hdist : best.distance < t
      · rw [sfcStep_of_hit hlen hrel hdist]
        intro hflag cr hcr
        rw [supportedUpdate_is_supported] at hflag
        rw [supportedUpdate_claim_results] at hcr
        rcases List.mem_append.mp hcr with hm | hm
        · exact h hflag cr hm
        · simp only [List.mem_singleton] at hm
          subst hm
          simp [hitClaimResult]
      · rw [sfcStep_of_miss hlen hrel hdist]
        intro hflag; simp [unsupportedUpdate] at hflag

/-- C8: if the vector store only ever returns distances in `[0,1]`, every
per-claim confidence recorded by `simple_fact_check` lies in `[0,1]`
(supported claims get `1 - distance`, unsupported claims exactly `0`),
and as soon as any recorded claim is unsupported the overall confidence
is at most the `0.6` floor. -/
theorem per_claim_confidence_bounds
    (retrieve : List Char → List RChunk) (message : List Char) (t : ℚ)
    (hd : ∀ s c, c ∈ retrieve s → 0 ≤ c.distance ∧ c.distance ≤ 1) :
    (∀ cr ∈ (simple_fact_check retrieve message t).claim_results,
        0 ≤ cr.confidence ∧ cr.confidence ≤ 1 ∧ (cr.source = none → cr.confidence = 0)) ∧
      ((∃ cr ∈ (simple_fact_check retrieve message t).claim_results, cr.source = none) →
        (simple_fact_check retrieve message t).confidence ≤ 3/5) := by
  have hP : claimBounds (simple_fact_check retrieve message t) ∧
      allSupportedWhenFlag (simple_fact_check retrieve message t) ∧
      confFlag (simple_fact_check retrieve message t) := by
    unfold simple_fact_check
    refine foldl_preserve _
      (fun r => claimBounds r ∧ allSupportedWhenFlag r ∧ confFlag r)
      (fun b a hb => ⟨sfcStep_claimBounds retrieve t hd b a hb.1,
        sfcStep_allSupportedWhenFlag retrieve t b a hb.2.1,
        sfcStep_confFlag retrieve t b a hb.2.2⟩) _ sfcInit
      ⟨?_, ?_, ?_⟩
    · intro cr hcr; simp [sfcInit] at hcr
    · intro _ cr hcr; simp [sfcInit] at hcr
    · simp [confFlag, sfcInit]
  obtain ⟨hB, hA, hC⟩ := hP
  refine ⟨hB, ?_⟩
  rintro ⟨cr, hcr, hnone⟩
  by_cases hflag : (simple_fact_check retrieve message t).is_supported = true
  · exact absurd hnone (hA hflag cr hcr)
  · unfold confFlag at hC
    rw [if_neg hflag] at hC
    rw [hC]

/-- A store hit at distance `1/2` for the C8 witness. -/
def witChunk : RChunk :=
  { text := "witness chunk text".toList, title := "WT", source := "WS", distance := 1/2 }

/-- A retrieval oracle returning only `witChunk`: all distances in `[0,1]`. -/
def witRetrieve : List Char → List RChunk := fun _ => [witChunk]

/-- Witness for C8 at a concrete oracle and message. -/
theorem per_claim_confidence_bounds_witness :
    (∀ cr ∈ (simple_fact_check witRetrieve longClaim (3/5)).claim_results,
        0 ≤ cr.confidence ∧ cr.confidence ≤ 1 ∧ (cr.source = none → cr.confidence = 0)) ∧
      ((∃ cr ∈ (simple_fact_check witRetrieve longClaim (3/5)).claim_results, cr.source = none) →
        (simple_fact_check witRetrieve longClaim (3/5)).confidence ≤ 3/5) :=
  per_claim_confidence_bounds witRetrieve longClaim (3/5) (by
    intro s c hc
    simp only [witRetrieve, List.mem_singleton] at hc
    subst hc
    norm_num [witChunk])

lemma foldl_sfcStep_skip (retrieve : List Char → List RChunk) (t : ℚ) :
    ∀ (l : List (List Char)) (r : Verdict), (∀ s ∈ l, s.length < 20) →
      l.foldl (sfcStep retrieve t) r = r := by
  intro l
  induction l with
  | nil => intro r _; rfl
  | cons a l ih =>
    intro r h
    rw [List.foldl_cons, sfcStep_skip retrieve t r (h a (List.mem_cons_self a l))]
    exact ih r (fun s hs => h s (List.mem_cons_of_mem a hs))

/-- C10: if every fragment of the message split on `[.!?]+` has stripped
length at most 19 characters, no sentence survives both length filters,
so `simple_fact_check` returns the untouched initial verdict: supported,
confidence `1.0`, no claim results and no sources. -/
theorem no_evaluable_claims_fully_supported
    (retrieve : List Char → List RChunk) (message : List Char) (t : ℚ)
    (h : ∀ frag ∈ reSplitTerms message, (pyStrip frag).length ≤ 19) :
    simple_fact_check retrieve message t =
      { is_supported := true, confidence := 1, claim_results := [], sources := [] } := by
  show (((reSplitTerms message).filterMap
      (fun s => let t := pyStrip s; if 10 < t.length then some t else none)).take 5).foldl
      (sfcStep retrieve t) sfcInit = _
  rw [foldl_sfcStep_skip retrieve t _ sfcInit ?_]
  · rfl
  · intro s hs
    have hs' := List.mem_of_mem_take hs
    obtain ⟨frag, hfrag, hf⟩ := List.mem_filterMap.mp hs'
    simp only [] at hf
    split at hf
    · cases hf
      have := h frag hfrag
      omega
    · cases hf

/-- A message whose fragments all strip to at most 19 characters. -/
def shortMsg : List Char := "hello there. hi.".toList

/-- Witness for C10 at a concrete message (its first fragment strips to 11
characters, passing the `> 10` filter but skipped by the `< 20` check). -/
theorem no_evaluable_claims_fully_supported_witness :
    simple_fact_check (fun _ => []) shortMsg (3/5) =
      { is_supported := true, confidence := 1, claim_results := [], sources := [] } :=
  no_evaluable_claims_fully_supported (fun _ => []) shortMsg (3/5) (by decide)

/-! ## Sweep lemmas and claims C3, C4, C6, C7 -/

lemma fpLookup_insert_self (m : FpMap) (k : String) (v : PdfInfo) :
    fpLookup (fpInsert m k v) k = some v := by
  induction m with
  | nil => simp [fpInsert, fpLookup]
  | cons kv rest ih =>
    obtain ⟨k', v'⟩ := kv
    by_cases h : k' = k
    · subst h; simp [fpInsert, fpLookup]
    · simp [fpInsert, fpLookup, h, ih]

lemma fpLookup_insert_ne (m : FpMap) {k k' : String} (v : PdfInfo) (h : k' ≠ k) :
    fpLookup (fpInsert m k v) k' = fpLookup m k' := by
  induction m with
  | nil => simp [fpInsert, fpLookup, Ne.symm h]
  | cons kv rest ih =>
    obtain ⟨k'', v''⟩ := kv
    by_cases hk : k'' = k
    · subst hk
      simp [fpInsert, fpLookup, Ne.symm h]
    · by_cases hk' : k'' = k'
      · subst hk'
        simp [fpInsert, fpLookup, hk]
      · simp [fpInsert, fpLookup, hk, hk', ih]

/-- `isChanged` only reads the stored fingerprint under the document's
name. -/
lemma isChanged_congr {m1 m2 : FpMap} (p : PdfInfo)
    (h : fpLookup m1 p.name = fpLookup m2 p.name) : isChanged m1 p = isChanged m2 p := by
  unfold isChanged
  rw [h]

/-- A document whose stored fingerprint equals its current one is
unchanged. -/
lemma isChanged_self {m : FpMap} (p : PdfInfo) (h : fpLookup m p.name = some p) :
    isChanged m p = false := by
  unfold isChanged
  rw [h]
  simp

/-- With `raiseErr = false`, `_process_single_pdf` returns normally — in
particular batch failures never escape it. -/
lemma processSinglePdf_ok (p : PdfInfo) (nChunks : Nat) (batchFail : Nat → Bool) :
    ∃ out, processSinglePdf p false nChunks batchFail = Except.ok out := by
  unfold processSinglePdf
  simp only [Bool.false_eq_true, if_false]
  split
  · exact ⟨_, rfl⟩
  · split
    · exact ⟨_, rfl⟩
    · exact ⟨_, rfl⟩

/-- Branch equation for a successfully processed document. -/
lemma sweepDocStep_ok {docRaise : String → Bool} {docChunks : String → Nat}
    {batchFail : String → Nat → Bool} {acc : SweepAcc} {p : PdfInfo} {out : IngestOutcome}
    (h : processSinglePdf p (docRaise p.name) (docChunks p.name) (batchFail p.name) =
      Except.ok out) :
    sweepDocStep docRaise docChunks batchFail acc p =
      { meta := fpInsert acc.meta p.name p,
        deletes := if (fpLookup acc.meta p.name).isSome then acc.deletes ++ [p.name]
          else acc.deletes,
        upserts := acc.upserts ++ out.upserted.map (fun i => (p.name, i)) } := by
  unfold sweepDocStep
  rw [h]

/-- Branch equation for a document whose processing raised. -/
lemma sweepDocStep_error {docRaise : String → Bool} {docChunks : String → Nat}
    {batchFail : String → Nat → Bool} {acc : SweepAcc} {p : PdfInfo} {e : Unit}
    (h : processSinglePdf p (docRaise p.name) (docChunks p.name) (batchFail p.name) =
      Except.error e) :
    sweepDocStep docRaise docChunks batchFail acc p =
      { acc with deletes := if (fpLookup acc.meta p.name).isSome then acc.deletes ++ [p.name]
          else acc.deletes } := by
  unfold sweepDocStep
  rw [h]

/-- The per-document step never disturbs other documents' fingerprints. -/
lemma sweepDocStep_lookup_ne {docRaise : String → Bool} {docChunks : String → Nat}
    {batchFail : String → Nat → Bool} (acc : SweepAcc) (p : PdfInfo) {n : String}
    (h : n ≠ p.name) :
    fpLookup (sweepDocStep docRaise docChunks batchFail acc p).meta n = fpLookup acc.meta n := by
  cases hp : processSinglePdf p (docRaise p.name) (docChunks p.name) (batchFail p.name) with
  | error e => rw [sweepDocStep_error hp]
  | ok out =>
    rw [sweepDocStep_ok hp]
    exact fpLookup_insert_ne acc.meta p h

/-- An upsert recorded by the per-document step either predates the step
or carries the document's own name. -/
lemma sweepDocStep_upserts_mem {docRaise : String → Bool} {docChunks : String → Nat}
    {batchFail : String → Nat → Bool} (acc : SweepAcc) (p : PdfInfo) {u : String × Nat}
    (h : u ∈ (sweepDocStep docRaise docChunks batchFail acc p).upserts) :
    u ∈ acc.upserts ∨ u.1 = p.name := by
  cases hp : processSinglePdf p (docRaise p.name) (docChunks p.name) (batchFail p.name) with
  | error e =>
    rw [sweepDocStep_error hp] at h
    exact Or.inl h
  | ok out =>
    rw [sweepDocStep_ok hp] at h
    rcases List.mem_append.mp h with h1 | h1
    · exact Or.inl h1
    · obtain ⟨i, _, hi⟩ := List.mem_map.mp h1
      exact Or.inr (by rw [← hi])

/-- Folding the update loop over documents not named `n` leaves `n`'s
fingerprint alone. -/
lemma sweepFoldl_lookup_not_mem {docRaise : String → Bool} {docChunks : String → Nat}
    {batchFail : String → Nat → Bool} :
    ∀ (l : List PdfInfo) (acc : SweepAcc) (n : String), n ∉ l.map PdfInfo.name →
      fpLookup (l.foldl (sweepDocStep docRaise docChunks batchFail) acc).meta n =
        fpLookup acc.meta n := by
  intro l
  induction l with
  | nil => intro acc n _; rfl
  | cons p l ih =>
    intro acc n hn
    simp only [List.map_cons, List.mem_cons, not_or] at hn
    rw [List.foldl_cons, ih _ n hn.2, sweepDocStep_lookup_ne acc p hn.1]

/-- A changed document processed without an external exception ends the
loop with its current fingerprint committed. -/
lemma sweepFoldl_lookup_commit {docRaise : String → Bool} {docChunks : String → Nat}
    {batchFail : String → Nat → Bool} :
    ∀ (l : List PdfInfo) (acc : SweepAcc) (p : PdfInfo), p ∈ l →
      (l.map PdfInfo.name).Nodup → docRaise p.name = false →
      fpLookup (l.foldl (sweepDocStep docRaise docChunks batchFail) acc).meta p.name = some p := by
  intro l
  induction l with
  | nil => intro acc p hp _ _; cases hp
  | cons q l ih =>
    intro acc p hp hnodup hraise
    simp only [List.map_cons, List.nodup_cons] at hnodup
    rw [List.foldl_cons]
    rcases List.mem_cons.mp hp with hpq | hpl
    · subst hpq
      rw [sweepFoldl_lookup_not_mem l _ p.name hnodup.1]
      obtain ⟨out, hout⟩ := processSinglePdf_ok p (docChunks p.name) (batchFail p.name)
      rw [sweepDocStep_ok (by rw [hraise]; exact hout)]
      exact fpLookup_insert_self acc.meta p.name p
    · exact ih _ p hpl hnodup.2 hraise

/-- Every upsert recorded by the loop names one of the looped documents. -/
lemma sweepFoldl_upserts_names {docRaise : String → Bool} {docChunks : String → Nat}
    {batchFail : String → Nat → Bool} :
    ∀ (l : List PdfInfo) (acc : SweepAcc) (u : String × Nat),
      u ∈ (l.foldl (sweepDocStep docRaise docChunks batchFail) acc).upserts →
      u ∈ acc.upserts ∨ u.1 ∈ l.map PdfInfo.name := by
  intro l
  induction l with
  | nil => intro acc u h; exact Or.inl h
  | cons p l ih =>
    intro acc u h
    rw [List.foldl_cons] at h
    rcases ih _ u h with h1 | h1
    · rcases sweepDocStep_upserts_mem acc p h1 with h2 | h2
      · exact Or.inl h2
      · exact Or.inr (by simp [h2])
    · exact Or.inr (by simp [h1])

/-- The changed-document list only draws from the first three listed
files. -/
lemma changed_subset_take3 {meta : FpMap} {files : List PdfInfo} {statFail : String → Bool}
    {p : PdfInfo} (h : p ∈ findNewOrUpdatedPdfs meta files statFail) :
    p ∈ files.take 3 ∧ (!statFail p.name && isChanged meta p) = true := by
  unfold findNewOrUpdatedPdfs at h
  exact List.mem_filter.mp h

/-- Distinct files in one directory listing carry distinct names. -/
lemma changed_names_nodup {meta : FpMap} {files : List PdfInfo} {statFail : String → Bool}
    (h : (files.map PdfInfo.name).Nodup) :
    ((findNewOrUpdatedPdfs meta files statFail).map PdfInfo.name).Nodup := by
  unfold findNewOrUpdatedPdfs
  exact h.sublist
    (((List.filter_sublist (files.take 3)).trans (List.take_sublist 3 files)).map PdfInfo.name)

/-- Branch equation: nothing changed means the sweep returns untouched
and unsaved. -/
lemma updateDatabase_empty {meta : FpMap} {files : List PdfInfo}
    {statFail docRaise : String → Bool} {docChunks : String → Nat}
    {batchFail : String → Nat → Bool}
    (h : findNewOrUpdatedPdfs meta files statFail = []) :
    updateDatabaseIfNeeded meta files statFail docRaise docChunks batchFail =
      { metadata := meta, deletes := [], upserts := [], fileOps := [], saved := false } := by
  unfold updateDatabaseIfNeeded
  rw [h]
  rfl

/-- Branch equation: a nonempty changed list runs the loop and saves
once. -/
lemma updateDatabase_nonempty {meta : FpMap} {files : List PdfInfo}
    {statFail docRaise : String → Bool} {docChunks : String → Nat}
    {batchFail : String → Nat → Bool}
    (h : ¬(findNewOrUpdatedPdfs meta files statFail).isEmpty = true) :
    updateDatabaseIfNeeded meta files statFail docRaise docChunks batchFail =
      { metadata := (sweepFold meta (findNewOrUpdatedPdfs meta files statFail)
          docRaise docChunks batchFail).meta,
        deletes := (sweepFold meta (findNewOrUpdatedPdfs meta files statFail)
          docRaise docChunks batchFail).deletes,
        upserts := (sweepFold meta (findNewOrUpdatedPdfs meta files statFail)
          docRaise docChunks batchFail).upserts,
        fileOps := [FileOp.write "pdf_metadata.json"
          (sweepFold meta (findNewOrUpdatedPdfs meta files statFail)
            docRaise docChunks batchFail).meta],
        saved := true } := by
  unfold updateDatabaseIfNeeded
  rw [if_neg h]

/-- All batch start indices are attempted, whatever fails: a failing
batch is logged and skipped, never aborting the remaining batches. -/
lemma processChunksInBatches_attempted (bf : Nat → Bool) (n : Nat) :
    (processChunksInBatches bf n).attempted = (List.range ((n + 5 - 1) / 5)).map (· * 5) := by
  unfold processChunksInBatches
  have hgen : ∀ (l : List Nat) (st : IngestOutcome),
      (l.foldl (fun st i =>
        if bf i then { st with attempted := st.attempted ++ [i] }
        else { attempted := st.attempted ++ [i], upserted := st.upserted ++ [i] }) st).attempted =
      st.attempted ++ l := by
    intro l
    induction l with
    | nil => intro st; simp
    | cons a l ih =>
      intro st
      simp only [List.foldl_cons]
      by_cases h : bf a = true
      · rw [if_pos h, ih]
        simp
      · rw [if_neg h, ih]
        simp
  rw [hgen]
  simp

/-- After one sweep every document among the first three listed files is
unchanged, provided its processing raised no external exception. -/
lemma after_sweep_unchanged (meta : FpMap) (files : List PdfInfo)
    (statFail docRaise : String → Bool) (docChunks : String → Nat)
    (batchFail : String → Nat → Bool)
    (hnodup : (files.map PdfInfo.name).Nodup)
    (hraise : ∀ s, docRaise s = false) :
    ∀ p ∈ files.take 3, statFail p.name = false →
      isChanged (updateDatabaseIfNeeded meta files statFail docRaise docChunks
        batchFail).metadata p = false := by
  intro p hp hsf
  by_cases hemp : (findNewOrUpdatedPdfs meta files statFail).isEmpty = true
  · have hnil : findNewOrUpdatedPdfs meta files statFail = [] := List.isEmpty_iff.mp hemp
    rw [updateDatabase_empty hnil]
    have hnil' : (files.take 3).filter
        (fun p => !statFail p.name && isChanged meta p) = [] := hnil
    have hpred := List.filter_eq_nil_iff.mp hnil' p hp
    simp only [hsf, Bool.not_false, Bool.true_and, Bool.not_eq_true] at hpred
    exact hpred
  · rw [updateDatabase_nonempty hemp]
    show isChanged (sweepFold meta (findNewOrUpdatedPdfs meta files statFail)
      docRaise docChunks batchFail).meta p = false
    by_cases hmem : p ∈ findNewOrUpdatedPdfs meta files statFail
    · have hcommit : fpLookup (sweepFold meta (findNewOrUpdatedPdfs meta files statFail)
          docRaise docChunks batchFail).meta p.name = some p :=
        sweepFoldl_lookup_commit (findNewOrUpdatedPdfs meta files statFail)
          { meta := meta, deletes := [], upserts := [] } p hmem
          (changed_names_nodup hnodup) (hraise p.name)
      exact isChanged_self p hcommit
    · have hnames : p.name ∉ (findNewOrUpdatedPdfs meta files statFail).map PdfInfo.name := by
        intro hmemn
        obtain ⟨q, hq, hqname⟩ := List.mem_map.mp hmemn
        have hqp : q = p := List.inj_on_of_nodup_map hnodup
          (List.mem_of_mem_take (changed_subset_take3 hq).1)
          (List.mem_of_mem_take hp) hqname
        exact hmem (hqp ▸ hq)
      have hpres : fpLookup (sweepFold meta (findNewOrUpdatedPdfs meta files statFail)
          docRaise docChunks batchFail).meta p.name = fpLookup meta p.name :=
        sweepFoldl_lookup_not_mem (findNewOrUpdatedPdfs meta files statFail)
          { meta := meta, deletes := [], upserts := [] } p.name hnames
      rw [isChanged_congr p hpres]
      have hpred : ¬((!statFail p.name && isChanged meta p) = true) := by
        intro hc
        exact hmem (List.mem_filter.mpr ⟨hp, hc⟩)
      simp only [hsf, Bool.not_false, Bool.true_and, Bool.not_eq_true] at hpred
      exact hpred

/-- C7: with distinct file names and no external processing exceptions, a
second sweep over an unchanged listing finds every document's stored
`(size, modified)` fingerprint matching, classifies nothing as new or
changed, and therefore performs zero store upserts and zero deletes. -/
theorem second_sweep_no_upserts_no_deletes
    (meta : FpMap) (files : List PdfInfo) (statFail docRaise : String → Bool)
    (docChunks : String → Nat) (batchFail : String → Nat → Bool)
    (hnodup : (files.map PdfInfo.name).Nodup)
    (hraise : ∀ s, docRaise s = false) :
    (updateDatabaseIfNeeded
        (updateDatabaseIfNeeded meta files statFail docRaise docChunks batchFail).metadata
        files statFail docRaise docChunks batchFail).upserts = [] ∧
      (updateDatabaseIfNeeded
        (updateDatabaseIfNeeded meta files statFail docRaise docChunks batchFail).metadata
        files statFail docRaise docChunks batchFail).deletes = [] := by
  have hchanged2 : findNewOrUpdatedPdfs
      (updateDatabaseIfNeeded meta files statFail docRaise docChunks batchFail).metadata
      files statFail = [] := by
    have hall : ∀ p ∈ files.take 3,
        ¬((!statFail p.name && isChanged
          (updateDatabaseIfNeeded meta files statFail docRaise docChunks batchFail).metadata p)
          = true) := by
      intro p hp hc
      rw [Bool.and_eq_true] at hc
      obtain ⟨hsf, hch⟩ := hc
      rw [Bool.not_eq_eq_eq_not, Bool.not_true] at hsf
      rw [after_sweep_unchanged meta files statFail docRaise docChunks batchFail
        hnodup hraise p hp hsf] at hch
      exact Bool.false_ne_true hch
    exact List.filter_eq_nil_iff.mpr hall
  rw [updateDatabase_empty hchanged2]
  exact ⟨rfl, rfl⟩

/-- A fingerprint record as `_get_pdf_info` would produce it. -/
def mkPdf (n : String) : PdfInfo := { name := n, size := 1000, modified := 1, path := n }

/-- Benign oracles: no stat failures, no processing exceptions. -/
def noFail : String → Bool := fun _ => false

/-- Every document yields five chunks (one batch). -/
def fiveChunks : String → Nat := fun _ => 5

/-- No embedding/upsert batch fails. -/
def noBatchFail : String → Nat → Bool := fun _ _ => false

/-- A listing of four new documents. -/
def fourPdfs : List PdfInfo :=
  [mkPdf "d1.pdf", mkPdf "d2.pdf", mkPdf "d3.pdf", mkPdf "d4.pdf"]

/-- A listing of two new documents. -/
def twoPdfs : List PdfInfo := [mkPdf "a.pdf", mkPdf "b.pdf"]

/-- Witness for C7: two sweeps over the four-file listing from an empty
map; the second performs no upserts and no deletes. -/
theorem second_sweep_no_upserts_no_deletes_witness :
    (updateDatabaseIfNeeded
        (updateDatabaseIfNeeded [] fourPdfs noFail noFail fiveChunks noBatchFail).metadata
        fourPdfs noFail noFail fiveChunks noBatchFail).upserts = [] ∧
      (updateDatabaseIfNeeded
        (updateDatabaseIfNeeded [] fourPdfs noFail noFail fiveChunks noBatchFail).metadata
        fourPdfs noFail noFail fiveChunks noBatchFail).deletes = [] :=
  second_sweep_no_upserts_no_deletes [] fourPdfs noFail noFail fiveChunks noBatchFail
    (by decide) (fun _ => rfl)

/-- One sweep leaves the fingerprint of any document outside the first
three listed files untouched. -/
lemma sweep_lookup_preserved (files : List PdfInfo) (statFail docRaise : String → Bool)
    (docChunks : String → Nat) (batchFail : String → Nat → Bool) (d : String)
    (hd : d ∉ (files.take 3).map PdfInfo.name) (meta : FpMap) :
    fpLookup (updateDatabaseIfNeeded meta files statFail docRaise docChunks
      batchFail).metadata d = fpLookup meta d := by
  by_cases hemp : (findNewOrUpdatedPdfs meta files statFail).isEmpty = true
  · rw [updateDatabase_empty (List.isEmpty_iff.mp hemp)]
  · rw [updateDatabase_nonempty hemp]
    refine sweepFoldl_lookup_not_mem _ _ d ?_
    intro hmem
    obtain ⟨q, hq, hqd⟩ := List.mem_map.mp hmem
    exact hd (List.mem_map.mpr ⟨q, (changed_subset_take3 hq).1, hqd⟩)

/-- Every upsert a sweep performs names one of the first three listed
files. -/
lemma sweep_upserts_take3 (files : List PdfInfo) (statFail docRaise : String → Bool)
    (docChunks : String → Nat) (batchFail : String → Nat → Bool) (meta : FpMap)
    {u : String × Nat}
    (hu : u ∈ (updateDatabaseIfNeeded meta files statFail docRaise docChunks
      batchFail).upserts) :
    u.1 ∈ (files.take 3).map PdfInfo.name := by
  by_cases hemp : (findNewOrUpdatedPdfs meta files statFail).isEmpty = true
  · rw [updateDatabase_empty (List.isEmpty_iff.mp hemp)] at hu
    exact absurd hu (List.not_mem_nil u)
  · rw [updateDatabase_nonempty hemp] at hu
    rcases sweepFoldl_upserts_names _ _ u hu with h | h
    · exact absurd h (List.not_mem_nil u)
    · obtain ⟨q, hq, hqd⟩ := List.mem_map.mp h
      exact List.mem_map.mpr ⟨q, (changed_subset_take3 hq).1, hqd⟩

/-- C6 amended: the per-sweep cap truncates the directory listing before
change detection, so it does not merely defer work.  A document whose
name is not among the first three listed files keeps its metadata entry
unchanged across any number of sweeps, and no sweep ever upserts under
its name. -/
theorem documents_beyond_cap_never_processed
    (files : List PdfInfo) (statFail docRaise : String → Bool)
    (docChunks : String → Nat) (batchFail : String → Nat → Bool) (d : String)
    (hd : d ∉ (files.take 3).map PdfInfo.name) :
    ∀ (n : Nat) (meta : FpMap),
      fpLookup (iterateSweeps files statFail docRaise docChunks batchFail n meta) d =
          fpLookup meta d ∧
        ∀ u ∈ (updateDatabaseIfNeeded
            (iterateSweeps files statFail docRaise docChunks batchFail n meta)
            files statFail docRaise docChunks batchFail).upserts, u.1 ≠ d := by
  intro n
  induction n with
  | zero =>
    intro meta
    refine ⟨rfl, ?_⟩
    intro u hu hud
    exact hd (hud ▸ sweep_upserts_take3 files statFail docRaise docChunks batchFail meta hu)
  | succ n ih =>
    intro meta
    have hstep : iterateSweeps files statFail docRaise docChunks batchFail (n + 1) meta =
        iterateSweeps files statFail docRaise docChunks batchFail n
          (updateDatabaseIfNeeded meta files statFail docRaise docChunks batchFail).metadata :=
      rfl
    rw [hstep]
    obtain ⟨ih1, ih2⟩ :=
      ih (updateDatabaseIfNeeded meta files statFail docRaise docChunks batchFail).metadata
    exact ⟨ih1.trans
      (sweep_lookup_preserved files statFail docRaise docChunks batchFail d hd meta), ih2⟩

/-- Witness for C6 (amended): `d4.pdf` sits beyond the cap in the
four-file listing; after two sweeps its entry is still absent and a third
sweep would not upsert it. -/
theorem documents_beyond_cap_never_processed_witness :
    fpLookup (iterateSweeps fourPdfs noFail noFail fiveChunks noBatchFail 2 []) "d4.pdf" =
        fpLookup [] "d4.pdf" ∧
      ∀ u ∈ (updateDatabaseIfNeeded
          (iterateSweeps fourPdfs noFail noFail fiveChunks noBatchFail 2 [])
          fourPdfs noFail noFail fiveChunks noBatchFail).upserts, u.1 ≠ "d4.pdf" :=
  documents_beyond_cap_never_processed fourPdfs noFail noFail fiveChunks noBatchFail
    "d4.pdf" (by decide) 2 []

/-- The metadata map after one sweep of the four-file listing from an
empty map. -/
def sweep1meta : FpMap :=
  (updateDatabaseIfNeeded [] fourPdfs noFail noFail fiveChunks noBatchFail).metadata

/-- C6 counterexample: the claim says a new document beyond the cap is
merely deferred and some later sweep commits it.  With four new documents
and a stable listing, the first sweep commits only `d1..d3`; the second
sweep finds the capped listing unchanged and returns the state untouched
(no upserts, no deletes, nothing saved) — a fixed point, so `d4.pdf` is
never processed by any later sweep either. -/
theorem capped_listing_skips_fourth_document_cx :
    fpLookup ([] : FpMap) "d4.pdf" = none ∧
      mkPdf "d4.pdf" ∈ fourPdfs ∧
      fpLookup sweep1meta "d4.pdf" = none ∧
      updateDatabaseIfNeeded sweep1meta fourPdfs noFail noFail fiveChunks noBatchFail =
        { metadata := sweep1meta, deletes := [], upserts := [], fileOps := [],
          saved := false } := by
  refine ⟨rfl, by decide, by decide, by decide⟩

/-- Chroma batch oracle failing exactly the first batch (start index 0). -/
def failFirstBatch : String → Nat → Bool := fun _ i => i == 0

/-- Every document yields ten chunks (two batches of five). -/
def tenChunks : String → Nat := fun _ => 10

/-- C3 counterexample: the claim says a failing embed/upsert batch aborts
the document's remaining batches and leaves its fingerprint uncommitted.
With ten chunks and the first batch failing, the second batch (start
index 5) is still attempted and upserted, and the document's fingerprint
is committed anyway, so the next sweep will not re-detect it. -/
theorem batch_failure_continues_and_commits_cx :
    (processChunksInBatches (fun i => i == 0) 10).attempted = [0, 5] ∧
      (processChunksInBatches (fun i => i == 0) 10).upserted = [5] ∧
      fpLookup (updateDatabaseIfNeeded [] [mkPdf "a.pdf"] noFail noFail tenChunks
        failFirstBatch).metadata "a.pdf" = some (mkPdf "a.pdf") ∧
      (updateDatabaseIfNeeded [] [mkPdf "a.pdf"] noFail noFail tenChunks
        failFirstBatch).upserts = [("a.pdf", 5)] := by
  refine ⟨by decide, by decide, by decide, by decide⟩

/-- C3 amended: a failing embed/upsert batch only loses that batch: every
batch start index is attempted regardless of failures, and a changed
document whose processing raises no external exception gets its
fingerprint committed whatever its batches did. -/
theorem batch_failure_skips_only_that_batch
    (meta : FpMap) (files : List PdfInfo) (statFail docRaise : String → Bool)
    (docChunks : String → Nat) (batchFail : String → Nat → Bool) (p : PdfInfo)
    (hnodup : (files.map PdfInfo.name).Nodup)
    (hp : p ∈ findNewOrUpdatedPdfs meta files statFail)
    (hraise : docRaise p.name = false) :
    (∀ (bf : Nat → Bool) (n : Nat),
        (processChunksInBatches bf n).attempted =
          (List.range ((n + 5 - 1) / 5)).map (· * 5)) ∧
      fpLookup (updateDatabaseIfNeeded meta files statFail docRaise docChunks
        batchFail).metadata p.name = some p := by
  refine ⟨processChunksInBatches_attempted, ?_⟩
  have hemp : ¬(findNewOrUpdatedPdfs meta files statFail).isEmpty = true := by
    intro he
    rw [List.isEmpty_iff.mp he] at hp
    exact absurd hp (List.not_mem_nil p)
  rw [updateDatabase_nonempty hemp]
  exact sweepFoldl_lookup_commit _ _ p hp (changed_names_nodup hnodup) hraise

/-- Witness for C3 (amended) at the concrete failing-batch scenario. -/
theorem batch_failure_skips_only_that_batch_witness :
    (∀ (bf : Nat → Bool) (n : Nat),
        (processChunksInBatches bf n).attempted =
          (List.range ((n + 5 - 1) / 5)).map (· * 5)) ∧
      fpLookup (updateDatabaseIfNeeded [] [mkPdf "a.pdf"] noFail noFail tenChunks
        failFirstBatch).metadata (mkPdf "a.pdf").name = some (mkPdf "a.pdf") :=
  batch_failure_skips_only_that_batch [] [mkPdf "a.pdf"] noFail noFail tenChunks
    failFirstBatch (mkPdf "a.pdf") (by decide) (by decide) rfl

/-- C4 counterexample: the claim says the fingerprint map is written once
per document commit via write-to-temp-then-replace.  In a sweep that
commits two documents, exactly one metadata-file operation is issued, and
it is a direct overwrite of `pdf_metadata.json` — no temporary file and no
rename. -/
theorem metadata_single_direct_write_cx :
    (updateDatabaseIfNeeded [] twoPdfs noFail noFail fiveChunks noBatchFail).fileOps =
        [FileOp.write "pdf_metadata.json"
          (updateDatabaseIfNeeded [] twoPdfs noFail noFail fiveChunks noBatchFail).metadata] ∧
      (fpLookup (updateDatabaseIfNeeded [] twoPdfs noFail noFail fiveChunks
        noBatchFail).metadata "a.pdf").isSome = true ∧
      (fpLookup (updateDatabaseIfNeeded [] twoPdfs noFail noFail fiveChunks
        noBatchFail).metadata "b.pdf").isSome = true := by
  refine ⟨by decide, by decide, by decide⟩

/-- C4 amended: `_save_pdf_metadata` runs once per sweep, after all
documents, and issues a single direct `write` of the whole map to
`pdf_metadata.json` (no temporary file, no rename) — and not at all when
nothing changed. -/
theorem metadata_written_once_per_sweep
    (meta : FpMap) (files : List PdfInfo) (statFail docRaise : String → Bool)
    (docChunks : String → Nat) (batchFail : String → Nat → Bool) :
    (updateDatabaseIfNeeded meta files statFail docRaise docChunks batchFail).fileOps =
      if (findNewOrUpdatedPdfs meta files statFail).isEmpty then []
      else [FileOp.write "pdf_metadata.json"
        (updateDatabaseIfNeeded meta files statFail docRaise docChunks batchFail).metadata] := by
  by_cases hemp : (findNewOrUpdatedPdfs meta files statFail).isEmpty = true
  · rw [updateDatabase_empty (List.isEmpty_iff.mp hemp), if_pos hemp]
  · rw [updateDatabase_nonempty hemp, if_neg hemp]

end FactChecker
